import Mathlib

/-!
# LYWSD02 command-line tool: embedding of `src/main.c` and `src/ble.h`

The program parses an optional temperature-units argument (`parseCommandLine`),
starts the BLE transport (`bleInitAndRun`) and, on the worker thread
(`workerMain`), runs the sequence connect, set time, set units, disconnect.

Conventions of the embedding:

* a C string is the list of its bytes, without the terminating NUL;
* C `int` values are `Int`; the only arithmetic on them is `argc--`, whose
  signed overflow (undefined behaviour) is modelled as `none`;
* reading through `ppArgs` past the strings of `argv` (its NULL terminator
  included) is undefined behaviour and is modelled as `none`;
* observable behaviour (output, calls into the BLE transport) is a list of
  `Event`s in program order.
-/

namespace LYWSD02

/-! ## Data model -/

/-- A C string: its bytes, the terminating NUL not included. -/
abbrev CString := List Nat

/-- The bytes of an ASCII string literal of the source. -/
def cstr (s : String) : CString := s.toList.map Char.toNat

/-- A list of bytes is a C string when no byte is NUL and every byte fits in
an `unsigned char`. -/
def IsCString (s : CString) : Prop := ∀ b ∈ s, 0 < b ∧ b < 256

instance (s : CString) : Decidable (IsCString s) := by
  unfold IsCString
  infer_instance

/-- The enum `TemperatureUnits` of `main.c`. -/
inductive TemperatureUnits
  | NONE
  | CELCIUS
  | FAHRENHEIT
  deriving DecidableEq, Repr

/-- The struct `CommandLineParams` of `main.c`. -/
structure CommandLineParams where
  tempUnits : TemperatureUnits
  deriving DecidableEq, Repr

/-- An argument of a `printf`-style call. -/
inductive FormatArg
  | int (i : Int)
  | str (s : CString)
  deriving DecidableEq, Repr

/-- Observable actions of the program: output calls with their format string
and arguments, and calls into the BLE transport declared in `ble.h`. -/
inductive Event
  | printf (fmt : String) (args : List FormatArg)
  | fprintf_stderr (fmt : String) (args : List FormatArg)
  | bleInitAndRun
  | bleConnect (pName : Option CString)
  | bleDisconnect
  | bleSetToCurrentTime
  | bleSetToCelcius
  | bleSetToFahrenheit
  deriving DecidableEq, Repr

/-- Smallest value of a 32-bit C `int`. -/
def INT_MIN : Int := -2147483648

/-! ## Error codes of `ble.h` -/

def BLE_ERROR_NONE : Int := 0
def BLE_ERROR_CONNECT : Int := 1
def BLE_ERROR_PARAM : Int := 2
def BLE_ERROR_MEMORY : Int := 3
def BLE_ERROR_NOT_CONNECTED : Int := 4
def BLE_ERROR_NO_REQUEST : Int := 5
def BLE_ERROR_TIMEOUT : Int := 6
def BLE_ERROR_EMPTY : Int := 7
def BLE_ERROR_BAD_RESPONSE : Int := 8
def BLE_ERROR_WRITE_FAILED : Int := 9

/-! ## C library functions used by `parseCommandLine` -/

/-- The C library function `tolower` in the "C" locale (the program never calls
`setlocale`): `'A'..'Z'` are mapped to `'a'..'z'`, every other value is
unchanged. -/
def tolower (c : Nat) : Nat := if 65 ≤ c ∧ c ≤ 90 then c + 32 else c

/-- The C library function `strcasecmp`: walks both strings, comparing the
lower-cased bytes; returns their difference at the first mismatch and 0 when
the NUL terminator of both is reached.  The end of a list stands for the NUL
byte. -/
def strcasecmp : CString → CString → Int
  | [], [] => 0
  | [], b :: _ => (tolower 0 : Int) - (tolower b : Int)
  | a :: _, [] => (tolower a : Int) - (tolower 0 : Int)
  | a :: s1, b :: s2 =>
    if tolower a ≠ tolower b then (tolower a : Int) - (tolower b : Int)
    else if a = 0 then 0
    else strcasecmp s1 s2

/-! ## `main.c` -/

/-- The output of `displayUsage`: one `printf` of the usage text. -/
def displayUsage : List Event :=
  [Event.printf
    ("\n" ++
     "Usage: LYWSD02 [Celcius | C | Fahrenheit | F]\n" ++
     "Where:\n" ++
     "  Celcius or C sets temperature display to be in Celcius.\n" ++
     "  Fahrenheight or F sets temperature display to be in Fahrenheit.\n" ++
     "\n" ++
     "  The device's time will always be updated to match the current local time\n" ++
     "  even if temperature setting is left blank.\n") []]

/-- What a call of `parseCommandLine` leaves behind: the returned `int`, the
contents of `*pParams`, the output it produced and the indices of `argv` it
dereferenced, in order. -/
structure ParseOutcome where
  result : Int
  params : CommandLineParams
  trace : List Event
  reads : List Nat
  deriving DecidableEq, Repr

/-- The `while (argc && result == 0)` loop of `parseCommandLine`.
`ppArgs` is the part of `argv` from the pointer `ppArgs` on, `idx` the index of
`*ppArgs` in `argv`, `params` the current `*pParams`, `reads` the indices read
so far.  `result` is 0 throughout the loop (the error path returns directly),
so the loop condition is `argc ≠ 0`. -/
def parseCommandLine_loop :
    List CString → Int → Nat → CommandLineParams → List Nat → Option ParseOutcome
  | [], argc, _, params, reads =>
    if argc = 0 then some ⟨0, params, [], reads⟩
    else none
  | pArg :: rest, argc, idx, params, reads =>
    if argc = 0 then some ⟨0, params, [], reads⟩
    else if strcasecmp pArg (cstr "celcius") = 0 ∨ strcasecmp pArg (cstr "c") = 0 then
      if argc - 1 < INT_MIN then none
      else parseCommandLine_loop rest (argc - 1) (idx + 1)
        { params with tempUnits := TemperatureUnits.CELCIUS } (reads ++ [idx])
    else if strcasecmp pArg (cstr "fahrenheit") = 0 ∨ strcasecmp pArg (cstr "f") = 0 then
      if argc - 1 < INT_MIN then none
      else parseCommandLine_loop rest (argc - 1) (idx + 1)
        { params with tempUnits := TemperatureUnits.FAHRENHEIT } (reads ++ [idx])
    else
      some ⟨-1, params,
        [Event.fprintf_stderr "error: '%s' isn't a valid command line flag.\n"
          [FormatArg.str pArg]],
        reads ++ [idx]⟩

/-- The function `parseCommandLine(pParams, argc, ppArgs)`; `argv` holds the
strings `ppArgs[0]`, `ppArgs[1]`, ... up to the NULL terminator.  The value of
`*pParams` on entry is overwritten before it is read, so it is no input. -/
def parseCommandLine (argc : Int) (argv : List CString) : Option ParseOutcome :=
  if argc - 1 < INT_MIN then none
  else parseCommandLine_loop argv.tail (argc - 1) 1
    { tempUnits := TemperatureUnits.NONE } []

/-- The process-visible result of `main`: its return value, the global
`g_params` and the events in program order. -/
structure MainOutcome where
  exitCode : Int
  g_params : CommandLineParams
  trace : List Event
  deriving DecidableEq, Repr

/-- The function `main(argc, argv)`.  The body of `bleInitAndRun` is in neither
`main.c` nor `ble.h`, so what it does is a parameter: the events that happen
during the call, as a function of the global `g_params` (for the transport of
`ble.h` these are the events of `workerMain`).  The call is taken to return. -/
def main (bleInitAndRun : CommandLineParams → List Event) (argc : Int)
    (argv : List CString) : Option MainOutcome :=
  match parseCommandLine argc argv with
  | none => none
  | some o =>
    if o.result ≠ 0 then
      some ⟨1, o.params, o.trace ++ displayUsage⟩
    else
      some ⟨0, o.params, o.trace ++ [Event.bleInitAndRun] ++ bleInitAndRun o.params⟩

/-- The result codes the BLE transport hands back to `workerMain`.  Each
function is called at most once per run, so one code per function describes
every behaviour of the transport that `workerMain` can observe. -/
structure BleResults where
  bleConnect : Int
  bleSetToCurrentTime : Int
  bleSetToCelcius : Int
  bleSetToFahrenheit : Int
  bleDisconnect : Int
  deriving DecidableEq, Repr

/-- The code after the label `Error:` of `workerMain`. -/
def workerMain_Error : List Event :=
  [Event.printf "Disconnecting...\n" [], Event.bleDisconnect]

/-- The function `workerMain`, reading the global `g_params`; the value is
the list of its output and BLE calls in program order. -/
def workerMain (ble : BleResults) (g_params : CommandLineParams) : List Event :=
  let t := [Event.printf "Attempting to connect to LYWSD02 device...\n" []]
  let t := t ++ [Event.bleConnect none]
  let result := ble.bleConnect
  if result ≠ 0 then
    let t := t ++ [Event.fprintf_stderr "error: Failed to connect to LYWSD02 device.\n" []]
    t ++ workerMain_Error
  else
    let t := t ++ [Event.printf "LYWSD02 device connected!\n" []]
    let t := t ++ [Event.printf "Updating time...\n" []]
    let t := t ++ [Event.bleSetToCurrentTime]
    let result := ble.bleSetToCurrentTime
    let t :=
      if result = BLE_ERROR_NOT_CONNECTED then
        t ++ [Event.printf "BLE connection lost!\n" []]
      else if result ≠ BLE_ERROR_NONE then
        t ++ [Event.printf "BLE transmit returned error: %d\n" [FormatArg.int result]]
      else t
    let step : Int × List Event :=
      if g_params.tempUnits = TemperatureUnits.CELCIUS then
        (ble.bleSetToCelcius,
          t ++ [Event.printf "Setting temperature units to Celcius...\n" [],
                Event.bleSetToCelcius])
      else if g_params.tempUnits = TemperatureUnits.FAHRENHEIT then
        (ble.bleSetToFahrenheit,
          t ++ [Event.printf "Setting temperature units to Fahrenheit...\n" [],
                Event.bleSetToFahrenheit])
      else
        (BLE_ERROR_NONE, t)
    let result := step.1
    let t := step.2
    let t :=
      if result = BLE_ERROR_NOT_CONNECTED then
        t ++ [Event.printf "BLE connection lost!\n" []]
      else if result ≠ BLE_ERROR_NONE then
        t ++ [Event.printf "BLE transmit returned error: %d\n" [FormatArg.int result]]
      else t
    t ++ workerMain_Error

/-! ## Vocabulary of the specification -/

/-- Two bytes are the same character up to the case of ASCII letters: they are
equal, or one is an upper-case ASCII letter and the other its lower-case
form. -/
def sameLetter (a b : Nat) : Bool :=
  a == b || (65 ≤ a && a ≤ 90 && b == a + 32) || (65 ≤ b && b ≤ 90 && a == b + 32)

/-- Two strings are equal ignoring ASCII letter case. -/
def eqIgnoreCase : CString → CString → Bool
  | [], [] => true
  | a :: s, b :: t => sameLetter a b && eqIgnoreCase s t
  | _, _ => false

/-- The argument names Celsius: `celcius` or `c`, ignoring ASCII case. -/
def namesCelcius (s : CString) : Bool :=
  eqIgnoreCase s (cstr "celcius") || eqIgnoreCase s (cstr "c")

/-- The argument names Fahrenheit: `fahrenheit` or `f`, ignoring ASCII case. -/
def namesFahrenheit (s : CString) : Bool :=
  eqIgnoreCase s (cstr "fahrenheit") || eqIgnoreCase s (cstr "f")

/-- The argument is one of the recognized units arguments. -/
def recognized (s : CString) : Bool := namesCelcius s || namesFahrenheit s

/-- The units named by a units argument (`NONE` for any other string). -/
def unitsNamed (s : CString) : TemperatureUnits :=
  if namesCelcius s then TemperatureUnits.CELCIUS
  else if namesFahrenheit s then TemperatureUnits.FAHRENHEIT
  else TemperatureUnits.NONE

/-- The units named by the last of a list of arguments, `NONE` for no
argument. -/
def unitsOfLast (args : List CString) : TemperatureUnits :=
  match args.getLast? with
  | none => TemperatureUnits.NONE
  | some a => unitsNamed a

/-- The calls into the BLE transport among a list of events. -/
def isBleCall : Event → Bool
  | Event.printf _ _ => false
  | Event.fprintf_stderr _ _ => false
  | _ => true

/-- The sequence of BLE calls made by `workerMain`. -/
def bleCalls (ble : BleResults) (g_params : CommandLineParams) : List Event :=
  (workerMain ble g_params).filter isBleCall

/-- The units command that `tempUnits` selects. -/
def unitsCommand : TemperatureUnits → List Event
  | TemperatureUnits.NONE => []
  | TemperatureUnits.CELCIUS => [Event.bleSetToCelcius]
  | TemperatureUnits.FAHRENHEIT => [Event.bleSetToFahrenheit]

/-- The events of the set-units step of `workerMain` up to and including its
BLE call: nothing when no units are selected. -/
def unitsStep : TemperatureUnits → List Event
  | TemperatureUnits.NONE => []
  | TemperatureUnits.CELCIUS =>
    [Event.printf "Setting temperature units to Celcius...\n" [], Event.bleSetToCelcius]
  | TemperatureUnits.FAHRENHEIT =>
    [Event.printf "Setting temperature units to Fahrenheit...\n" [], Event.bleSetToFahrenheit]

/-- The message reporting a lost connection. -/
def msgConnectionLost : Event := Event.printf "BLE connection lost!\n" []

/-- The generic failure message for result code `r`. -/
def msgTransmitError (r : Int) : Event :=
  Event.printf "BLE transmit returned error: %d\n" [FormatArg.int r]

/-- The result code that the set-units step of `workerMain` examines. -/
def unitsResult (ble : BleResults) : TemperatureUnits → Int
  | TemperatureUnits.NONE => BLE_ERROR_NONE
  | TemperatureUnits.CELCIUS => ble.bleSetToCelcius
  | TemperatureUnits.FAHRENHEIT => ble.bleSetToFahrenheit

/-- The events of `workerMain` from its start up to and including the call of
`bleSetToCurrentTime`, when `bleConnect` succeeds. -/
def timeStep : List Event :=
  [Event.printf "Attempting to connect to LYWSD02 device...\n" [],
   Event.bleConnect none,
   Event.printf "LYWSD02 device connected!\n" [],
   Event.printf "Updating time...\n" [],
   Event.bleSetToCurrentTime]

/-- What the specification says is logged for a command step that returned
`r`, given the events `log` logged for the step. -/
def StepLogged (r : Int) (log : List Event) : Prop :=
  (msgConnectionLost ∈ log ↔ r = BLE_ERROR_NOT_CONNECTED) ∧
  (msgTransmitError r ∈ log ↔ r ≠ BLE_ERROR_NONE ∧ r ≠ BLE_ERROR_NOT_CONNECTED) ∧
  (r = BLE_ERROR_NONE → log = []) ∧
  (∀ e ∈ log, e = msgConnectionLost ∨ e = msgTransmitError r) ∧
  log.length ≤ 1

/-! ## The BLE Session Manager behind `ble.h` -/

/-- Modelled from the spec: the Connection State of the Session Manager (the
implementation of the functions declared in `ble.h` is missing). -/
inductive ConnectionState
  | Disconnected
  | Connecting
  | Connected
  | Disconnecting
  deriving DecidableEq, Repr

/-- Modelled from the spec: the API calls and radio events that drive the
Session Manager (the implementation behind `ble.h` is missing).  `timeout` is the
expiry of the bound of the blocking call in progress. -/
inductive SessionEvent
  | connect
  | disconnect
  | sendCommand (expectsResponse : Bool)
  | radioConnected
  | radioDisconnected
  | radioLinkLost
  | radioResponse
  | timeout
  deriving DecidableEq, Repr

/-- Modelled from the spec: the state owned by the Session Manager, its
Connection State and whether a Pending Request exists (the implementation behind
`ble.h` is missing). -/
structure Session where
  state : ConnectionState
  pending : Bool
  deriving DecidableEq, Repr

/-- Modelled from the spec: one step of the Session Manager, following the
state machine of section 4.1 (the implementation behind `ble.h` is missing).
An event that labels no edge out of the current Connection State leaves the
Connection State as it is. -/
def sessionStep (s : Session) : SessionEvent → Session
  | SessionEvent.connect =>
    match s.state with
    | ConnectionState.Disconnected => { s with state := ConnectionState.Connecting }
    | _ => s
  | SessionEvent.radioConnected =>
    match s.state with
    | ConnectionState.Connecting => { s with state := ConnectionState.Connected }
    | _ => s
  | SessionEvent.disconnect =>
    match s.state with
    | ConnectionState.Connected => { state := ConnectionState.Disconnecting, pending := false }
    | _ => s
  | SessionEvent.radioDisconnected =>
    match s.state with
    | ConnectionState.Disconnecting => { state := ConnectionState.Disconnected, pending := false }
    | _ => s
  | SessionEvent.radioLinkLost =>
    match s.state with
    | ConnectionState.Connected => { state := ConnectionState.Disconnected, pending := false }
    | _ => s
  | SessionEvent.timeout =>
    match s.state with
    | ConnectionState.Connecting => { state := ConnectionState.Disconnected, pending := false }
    | ConnectionState.Connected => { s with pending := false }
    | _ => s
  | SessionEvent.sendCommand expectsResponse =>
    match s.state with
    | ConnectionState.Connected =>
      if s.pending then s else { s with pending := expectsResponse }
    | _ => s
  | SessionEvent.radioResponse => { s with pending := false }

/-- The transitions the Session Manager takes when the events `es` arrive in
order: for each event the Connection State before it, the event, and the
Connection State after it. -/
def sessionRun (s : Session) :
    List SessionEvent → List (ConnectionState × SessionEvent × ConnectionState)
  | [] => []
  | e :: es => (s.state, e, (sessionStep s e).state) :: sessionRun (sessionStep s e) es

/-- The edges of the Connection State machine as the specification lists
them: the cycle Disconnected, Connecting, Connected, Disconnecting,
Disconnected, then Connected to Disconnected (on link loss only) and Connecting
to Disconnected (on timeout only). -/
def isEdgeOn (e : SessionEvent) : ConnectionState → ConnectionState → Bool
  | ConnectionState.Disconnected, ConnectionState.Connecting => true
  | ConnectionState.Connecting, ConnectionState.Connected => true
  | ConnectionState.Connected, ConnectionState.Disconnecting => true
  | ConnectionState.Disconnecting, ConnectionState.Disconnected => true
  | ConnectionState.Connected, ConnectionState.Disconnected => e == SessionEvent.radioLinkLost
  | ConnectionState.Connecting, ConnectionState.Disconnected => e == SessionEvent.timeout
  | _, _ => false

/-! ## Lemmas on the library functions -/

theorem tolower_eq_iff (a b : Nat) : tolower a = tolower b ↔ sameLetter a b = true := by
  unfold tolower sameLetter
  simp only [Bool.or_eq_true, Bool.and_eq_true, beq_iff_eq, decide_eq_true_eq]
  split_ifs <;> omega

theorem tolower_ne_zero {a : Nat} (h : a ≠ 0) : tolower a ≠ 0 := by
  unfold tolower
  split_ifs <;> omega

theorem sameLetter_ne_zero {a b : Nat} (h : sameLetter a b = true) (hb : b ≠ 0) : a ≠ 0 := by
  unfold sameLetter at h
  simp only [Bool.or_eq_true, Bool.and_eq_true, beq_iff_eq, decide_eq_true_eq] at h
  omega

theorem eqIgnoreCase_not_mem_zero :
    ∀ (s t : CString), eqIgnoreCase s t = true → 0 ∉ t → 0 ∉ s
  | [], _, _, _ => by simp
  | _ :: _, [], h, _ => by simp [eqIgnoreCase] at h
  | a :: s, b :: t, h, ht => by
    simp only [eqIgnoreCase, Bool.and_eq_true] at h
    simp only [List.mem_cons, not_or] at ht ⊢
    exact ⟨fun h0 => sameLetter_ne_zero h.1 (fun hb => ht.1 hb.symm) h0.symm,
      eqIgnoreCase_not_mem_zero s t h.2 ht.2⟩

theorem strcasecmp_eq_zero_iff :
    ∀ (s t : CString), 0 ∉ s → 0 ∉ t → (strcasecmp s t = 0 ↔ eqIgnoreCase s t = true)
  | [], [], _, _ => by simp [strcasecmp, eqIgnoreCase]
  | [], b :: t, _, ht => by
    have hb : b ≠ 0 := fun h => ht (by simp [h])
    have hb0 := tolower_ne_zero hb
    have h0 : tolower 0 = 0 := by decide
    have hne : ((0 : Nat) : Int) - (tolower b : Int) ≠ 0 := by omega
    simp only [strcasecmp, eqIgnoreCase, h0]
    exact ⟨fun h => absurd h hne, fun h => by simp at h⟩
  | a :: s, [], hs, _ => by
    have ha : a ≠ 0 := fun h => hs (by simp [h])
    have ha0 := tolower_ne_zero ha
    have h0 : tolower 0 = 0 := by decide
    have hne : (tolower a : Int) - ((0 : Nat) : Int) ≠ 0 := by omega
    simp only [strcasecmp, eqIgnoreCase, h0]
    exact ⟨fun h => absurd h hne, fun h => by simp at h⟩
  | a :: s, b :: t, hs, ht => by
    have ha : a ≠ 0 := fun h => hs (by simp [h])
    simp only [List.mem_cons, not_or] at hs ht
    have ih := strcasecmp_eq_zero_iff s t hs.2 ht.2
    simp only [strcasecmp, eqIgnoreCase, Bool.and_eq_true, ← tolower_eq_iff]
    by_cases hab : tolower a = tolower b
    · simp [hab, ha, ih]
    · simp only [ne_eq, hab, not_false_eq_true, if_true, false_and, iff_false]
      omega

/-! ## Lemmas on the argument tests of `parseCommandLine` -/

theorem cstr_celcius : cstr "celcius" = [99, 101, 108, 99, 105, 117, 115] := by decide

theorem cstr_c : cstr "c" = [99] := by decide

theorem cstr_fahrenheit :
    cstr "fahrenheit" = [102, 97, 104, 114, 101, 110, 104, 101, 105, 116] := by decide

theorem cstr_f : cstr "f" = [102] := by decide

theorem literals_no_nul :
    0 ∉ cstr "celcius" ∧ 0 ∉ cstr "c" ∧ 0 ∉ cstr "fahrenheit" ∧ 0 ∉ cstr "f" := by
  decide

theorem IsCString.not_mem_zero {s : CString} (h : IsCString s) : 0 ∉ s := fun h0 =>
  absurd (h 0 h0).1 (by decide)

theorem recognized_not_mem_zero {s : CString} (h : recognized s = true) : 0 ∉ s := by
  obtain ⟨h1, h2, h3, h4⟩ := literals_no_nul
  simp only [recognized, namesCelcius, namesFahrenheit, Bool.or_eq_true] at h
  rcases h with (h | h) | (h | h)
  · exact eqIgnoreCase_not_mem_zero _ _ h h1
  · exact eqIgnoreCase_not_mem_zero _ _ h h2
  · exact eqIgnoreCase_not_mem_zero _ _ h h3
  · exact eqIgnoreCase_not_mem_zero _ _ h h4

/-- The first test of the loop body holds exactly for the arguments naming
Celsius. -/
theorem celcius_test_iff {s : CString} (hs : 0 ∉ s) :
    (strcasecmp s (cstr "celcius") = 0 ∨ strcasecmp s (cstr "c") = 0) ↔
      namesCelcius s = true := by
  obtain ⟨h1, h2, _, _⟩ := literals_no_nul
  simp only [namesCelcius, Bool.or_eq_true, strcasecmp_eq_zero_iff s _ hs h1,
    strcasecmp_eq_zero_iff s _ hs h2]

/-- The second test of the loop body holds exactly for the arguments naming
Fahrenheit. -/
theorem fahrenheit_test_iff {s : CString} (hs : 0 ∉ s) :
    (strcasecmp s (cstr "fahrenheit") = 0 ∨ strcasecmp s (cstr "f") = 0) ↔
      namesFahrenheit s = true := by
  obtain ⟨_, _, h3, h4⟩ := literals_no_nul
  simp only [namesFahrenheit, Bool.or_eq_true, strcasecmp_eq_zero_iff s _ hs h3,
    strcasecmp_eq_zero_iff s _ hs h4]

/-- No argument names both units. -/
theorem namesCelcius_of_namesFahrenheit {s : CString} (h : namesFahrenheit s = true) :
    namesCelcius s = false := by
  cases s with
  | nil => simp [namesFahrenheit, eqIgnoreCase, cstr_fahrenheit, cstr_f] at h
  | cons a s =>
    simp only [namesFahrenheit, cstr_fahrenheit, cstr_f, eqIgnoreCase, Bool.or_eq_true,
      Bool.and_eq_true] at h
    have ha : sameLetter a 102 = true := by
      rcases h with h | h
      · exact h.1
      · exact h.1
    have hc : sameLetter a 99 = false := by
      unfold sameLetter at ha ⊢
      simp only [Bool.or_eq_true, Bool.and_eq_true, beq_iff_eq, decide_eq_true_eq] at ha
      simp only [Bool.or_eq_false_iff, Bool.and_eq_false_iff, beq_eq_false_iff_ne,
        decide_eq_false_iff_not]
      omega
    simp [namesCelcius, cstr_celcius, cstr_c, eqIgnoreCase, hc]

theorem unitsNamed_of_namesCelcius {s : CString} (h : namesCelcius s = true) :
    unitsNamed s = TemperatureUnits.CELCIUS := by
  simp [unitsNamed, h]

theorem unitsNamed_of_namesFahrenheit {s : CString} (h : namesFahrenheit s = true) :
    unitsNamed s = TemperatureUnits.FAHRENHEIT := by
  simp [unitsNamed, h, namesCelcius_of_namesFahrenheit h]

/-! ## Lemmas on the loop of `parseCommandLine` -/

/-- One iteration of the loop when `argc` is positive: the loop condition holds
and `argc--` does not overflow. -/
theorem loop_unfold_cons (pArg : CString) (rest : List CString) (n : Nat) (idx : Nat)
    (params : CommandLineParams) (reads : List Nat) :
    parseCommandLine_loop (pArg :: rest) ((n : Int) + 1) idx params reads =
      if strcasecmp pArg (cstr "celcius") = 0 ∨ strcasecmp pArg (cstr "c") = 0 then
        parseCommandLine_loop rest n (idx + 1)
          { params with tempUnits := TemperatureUnits.CELCIUS } (reads ++ [idx])
      else if strcasecmp pArg (cstr "fahrenheit") = 0 ∨ strcasecmp pArg (cstr "f") = 0 then
        parseCommandLine_loop rest n (idx + 1)
          { params with tempUnits := TemperatureUnits.FAHRENHEIT } (reads ++ [idx])
      else
        some ⟨-1, params,
          [Event.fprintf_stderr "error: '%s' isn't a valid command line flag.\n"
            [FormatArg.str pArg]],
          reads ++ [idx]⟩ := by
  have h0 : ((n : Int) + 1 = 0) = False := by
    simp only [eq_iff_iff, iff_false]; omega
  have h1 : ((n : Int) < INT_MIN) = False := by
    simp only [eq_iff_iff, iff_false, INT_MIN]; omega
  have h2 : (n : Int) + 1 - 1 = n := by omega
  simp only [parseCommandLine_loop, h0, h1, h2, if_false]

/-- When every remaining argument is recognized the loop reads all of them,
returns 0 and leaves the units of the last one (the units on entry when there is
none). -/
theorem loop_all_recognized :
    ∀ (args : List CString) (idx : Nat) (params : CommandLineParams) (reads : List Nat),
      (∀ a ∈ args, recognized a = true) →
      parseCommandLine_loop args (args.length : Int) idx params reads =
        some ⟨0, ⟨(args.getLast?.map unitsNamed).getD params.tempUnits⟩, [],
          reads ++ List.range' idx args.length⟩
  | [], idx, params, reads, _ => by
    simp [parseCommandLine_loop]
  | pArg :: rest, idx, params, reads, h => by
    have hp : recognized pArg = true := h pArg (List.mem_cons_self _ _)
    have hrest : ∀ a ∈ rest, recognized a = true := fun a ha => h a (List.mem_cons_of_mem _ ha)
    have hz := recognized_not_mem_zero hp
    have hlen : (((pArg :: rest).length : Nat) : Int) = (rest.length : Int) + 1 := by simp
    rw [hlen, loop_unfold_cons]
    have hreads : reads ++ [idx] ++ List.range' (idx + 1) rest.length =
        reads ++ List.range' idx (pArg :: rest).length := by
      simp [List.range'_succ]
    by_cases hC : namesCelcius pArg = true
    · rw [if_pos ((celcius_test_iff hz).2 hC), loop_all_recognized rest _ _ _ hrest, hreads]
      cases rest with
      | nil => simp [unitsNamed_of_namesCelcius hC]
      | cons b r =>
        simp [List.getLast?_cons_cons, List.getLast?_eq_getLast _ (List.cons_ne_nil b r)]
    · have hF : namesFahrenheit pArg = true := by
        simp only [recognized, Bool.or_eq_true] at hp
        exact hp.resolve_left hC
      rw [if_neg (fun hc => hC ((celcius_test_iff hz).1 hc)),
        if_pos ((fahrenheit_test_iff hz).2 hF), loop_all_recognized rest _ _ _ hrest, hreads]
      cases rest with
      | nil => simp [unitsNamed_of_namesFahrenheit hF]
      | cons b r =>
        simp [List.getLast?_cons_cons, List.getLast?_eq_getLast _ (List.cons_ne_nil b r)]

/-- On NUL-free arguments the loop always returns: 0 with no output when every
argument is recognized, -1 with the error message for an unrecognized argument
otherwise. -/
theorem loop_outcome :
    ∀ (args : List CString) (idx : Nat) (params : CommandLineParams) (reads : List Nat),
      (∀ a ∈ args, 0 ∉ a) →
      ∃ o, parseCommandLine_loop args (args.length : Int) idx params reads = some o ∧
        ((o.result = 0 ∧ o.trace = [] ∧ ∀ a ∈ args, recognized a = true) ∨
         (o.result = -1 ∧ ∃ a ∈ args, recognized a = false ∧
            o.trace = [Event.fprintf_stderr "error: '%s' isn't a valid command line flag.\n"
              [FormatArg.str a]]))
  | [], idx, params, reads, _ => by
    simp [parseCommandLine_loop]
  | pArg :: rest, idx, params, reads, h => by
    have hz : 0 ∉ pArg := h pArg (List.mem_cons_self _ _)
    have hrest : ∀ a ∈ rest, 0 ∉ a := fun a ha => h a (List.mem_cons_of_mem _ ha)
    have hlen : (((pArg :: rest).length : Nat) : Int) = (rest.length : Int) + 1 := by simp
    rw [hlen, loop_unfold_cons]
    have step : ∀ (p : CommandLineParams), recognized pArg = true →
        ∃ o, parseCommandLine_loop rest (rest.length : Int) (idx + 1) p (reads ++ [idx]) = some o ∧
          ((o.result = 0 ∧ o.trace = [] ∧ ∀ a ∈ pArg :: rest, recognized a = true) ∨
           (o.result = -1 ∧ ∃ a ∈ pArg :: rest, recognized a = false ∧
              o.trace = [Event.fprintf_stderr "error: '%s' isn't a valid command line flag.\n"
                [FormatArg.str a]])) := by
      intro p hp
      obtain ⟨o, ho, hcase⟩ := loop_outcome rest (idx + 1) p (reads ++ [idx]) hrest
      refine ⟨o, ho, ?_⟩
      rcases hcase with ⟨h0, ht, hall⟩ | ⟨h1, a, ha, hna, ht⟩
      · left
        refine ⟨h0, ht, ?_⟩
        intro a ha
        rcases List.mem_cons.1 ha with rfl | ha
        · exact hp
        · exact hall a ha
      · right
        exact ⟨h1, a, List.mem_cons_of_mem _ ha, hna, ht⟩
    by_cases hC : namesCelcius pArg = true
    · rw [if_pos ((celcius_test_iff hz).2 hC)]
      exact step _ (by simp [recognized, hC])
    · rw [if_neg (fun hc => hC ((celcius_test_iff hz).1 hc))]
      by_cases hF : namesFahrenheit pArg = true
      · rw [if_pos ((fahrenheit_test_iff hz).2 hF)]
        exact step _ (by simp [recognized, hF])
      · rw [if_neg (fun hc => hF ((fahrenheit_test_iff hz).1 hc))]
        refine ⟨_, rfl, Or.inr ⟨rfl, pArg, List.mem_cons_self _ _, ?_, rfl⟩⟩
        simp only [Bool.not_eq_true] at hC hF
        simp [recognized, hC, hF]

/-- For a well-formed command line (`argc` strings, the program name first)
`parseCommandLine` runs its loop on the `argc - 1` arguments. -/
theorem parseCommandLine_eq_loop (argc : Int) (argv : List CString)
    (hargc : argc = argv.length) (h1 : 1 ≤ argc) :
    parseCommandLine argc argv =
      parseCommandLine_loop argv.tail (argv.tail.length : Int) 1
        { tempUnits := TemperatureUnits.NONE } [] := by
  have hlen : ((argv.tail.length : Nat) : Int) = argc - 1 := by
    rw [List.length_tail]; omega
  have hov : ¬ (argc - 1 < INT_MIN) := by
    simp only [INT_MIN]; omega
  simp only [parseCommandLine, hov, if_false, hlen]

theorem unitsOfLast_eq (args : List CString) :
    (args.getLast?.map unitsNamed).getD TemperatureUnits.NONE = unitsOfLast args := by
  unfold unitsOfLast
  cases args.getLast? <;> rfl

/-! ## The claims on `parseCommandLine` and `main` -/

/-- C1: for a command line of the program name followed by zero or one argument
`s`, `parseCommandLine` returns 0 with `tempUnits = NONE` when there is no
argument, 0 with `CELCIUS` when `s` is "celcius" or "c" ignoring ASCII case, and
0 with `FAHRENHEIT` when `s` is "fahrenheit" or "f" ignoring ASCII case. -/
theorem C1_parse_zero_or_one_argument (prog s : CString) :
    parseCommandLine 1 [prog] = some ⟨0, ⟨TemperatureUnits.NONE⟩, [], []⟩ ∧
    (namesCelcius s = true →
      parseCommandLine 2 [prog, s] = some ⟨0, ⟨TemperatureUnits.CELCIUS⟩, [], [1]⟩) ∧
    (namesFahrenheit s = true →
      parseCommandLine 2 [prog, s] = some ⟨0, ⟨TemperatureUnits.FAHRENHEIT⟩, [], [1]⟩) := by
  refine ⟨by simp [parseCommandLine, parseCommandLine_loop, INT_MIN], ?_, ?_⟩
  · intro h
    have hrec : ∀ a ∈ [s], recognized a = true := by
      intro a ha
      rw [List.mem_singleton.1 ha]
      simp [recognized, h]
    rw [parseCommandLine_eq_loop 2 [prog, s] (by simp) (by decide)]
    simpa [unitsNamed_of_namesCelcius h] using loop_all_recognized [s] 1 ⟨TemperatureUnits.NONE⟩ [] hrec
  · intro h
    have hrec : ∀ a ∈ [s], recognized a = true := by
      intro a ha
      rw [List.mem_singleton.1 ha]
      simp [recognized, h]
    rw [parseCommandLine_eq_loop 2 [prog, s] (by simp) (by decide)]
    simpa [unitsNamed_of_namesFahrenheit h] using loop_all_recognized [s] 1 ⟨TemperatureUnits.NONE⟩ [] hrec

/-- Witness of C1 at the arguments `CELCIUS` and `f`. -/
theorem C1_parse_zero_or_one_argument_witness :
    namesCelcius (cstr "CELCIUS") = true ∧
    parseCommandLine 2 [cstr "LYWSD02", cstr "CELCIUS"] =
      some ⟨0, ⟨TemperatureUnits.CELCIUS⟩, [], [1]⟩ ∧
    namesFahrenheit (cstr "f") = true ∧
    parseCommandLine 2 [cstr "LYWSD02", cstr "f"] =
      some ⟨0, ⟨TemperatureUnits.FAHRENHEIT⟩, [], [1]⟩ :=
  ⟨by decide,
   (C1_parse_zero_or_one_argument (cstr "LYWSD02") (cstr "CELCIUS")).2.1 (by decide),
   by decide,
   (C1_parse_zero_or_one_argument (cstr "LYWSD02") (cstr "f")).2.2 (by decide)⟩

/-- C2: for every argument vector of `argc >= 1` C strings, `main` returns, and
it returns 1 exactly when some argument after the program name is not
recognized; then its output is the error line for such an argument followed by
the usage text, given here word for word, and it does not call
`bleInitAndRun`.  In every other case it returns 0 and its
events are the call of `bleInitAndRun` followed by whatever happens during that
call, for every behaviour `bleInitAndRun` of the transport. -/
theorem C2_main_exit_code (bleInitAndRun : CommandLineParams → List Event) (argc : Int)
    (argv : List CString) (hargc : argc = argv.length) (h1 : 1 ≤ argc)
    (hstr : ∀ a ∈ argv, IsCString a) :
    ∃ o, main bleInitAndRun argc argv = some o ∧
      (o.exitCode = 1 ↔ ∃ a ∈ argv.tail, recognized a = false) ∧
      (o.exitCode = 1 →
        (∃ a ∈ argv.tail, recognized a = false ∧
          o.trace =
            [Event.fprintf_stderr "error: '%s' isn't a valid command line flag.\n"
              [FormatArg.str a],
            Event.printf
              ("\n" ++
               "Usage: LYWSD02 [Celcius | C | Fahrenheit | F]\n" ++
               "Where:\n" ++
               "  Celcius or C sets temperature display to be in Celcius.\n" ++
               "  Fahrenheight or F sets temperature display to be in Fahrenheit.\n" ++
               "\n" ++
               "  The device's time will always be updated to match the current local time\n" ++
               "  even if temperature setting is left blank.\n") []]) ∧
        Event.bleInitAndRun ∉ o.trace) ∧
      (o.exitCode ≠ 1 →
        o.exitCode = 0 ∧ o.trace = Event.bleInitAndRun :: bleInitAndRun o.g_params) := by
  have hz : ∀ a ∈ argv.tail, 0 ∉ a := fun a ha =>
    (hstr a (List.mem_of_mem_tail ha)).not_mem_zero
  obtain ⟨p, hp, hcase⟩ := loop_outcome argv.tail 1 ⟨TemperatureUnits.NONE⟩ [] hz
  rw [← parseCommandLine_eq_loop argc argv hargc h1] at hp
  rcases hcase with ⟨h0, ht, hall⟩ | ⟨hm, a, ha, hna, ht⟩
  · refine ⟨⟨0, p.params, p.trace ++ [Event.bleInitAndRun] ++ bleInitAndRun p.params⟩, ?_, ?_, ?_, ?_⟩
    · simp [main, hp, h0]
    · constructor
      · intro h; simp at h
      · rintro ⟨a, ha, hna⟩
        rw [hall a ha] at hna
        exact absurd hna (by decide)
    · intro h; simp at h
    · intro _
      simp [ht]
  · refine ⟨⟨1, p.params, p.trace ++ displayUsage⟩, ?_, ?_, ?_, ?_⟩
    · simp [main, hp, hm]
    · exact ⟨fun _ => ⟨a, ha, hna⟩, fun _ => rfl⟩
    · intro _
      refine ⟨⟨a, ha, hna, by simp [ht, displayUsage]⟩, ?_⟩
      simp [ht, displayUsage]
    · intro h; exact absurd rfl h

/-- Witness of C2 at the command line `LYWSD02 F bogus`, with `workerMain` under
a failing connect as the transport's behaviour. -/
theorem C2_main_exit_code_witness :
    ∃ o, main (workerMain ⟨1, 0, 0, 0, 0⟩) 3 [cstr "LYWSD02", cstr "F", cstr "bogus"] = some o ∧
      (o.exitCode = 1 ↔
        ∃ a ∈ [cstr "LYWSD02", cstr "F", cstr "bogus"].tail, recognized a = false) ∧
      (o.exitCode = 1 →
        (∃ a ∈ [cstr "LYWSD02", cstr "F", cstr "bogus"].tail, recognized a = false ∧
          o.trace =
            [Event.fprintf_stderr "error: '%s' isn't a valid command line flag.\n"
              [FormatArg.str a],
            Event.printf
              ("\n" ++
               "Usage: LYWSD02 [Celcius | C | Fahrenheit | F]\n" ++
               "Where:\n" ++
               "  Celcius or C sets temperature display to be in Celcius.\n" ++
               "  Fahrenheight or F sets temperature display to be in Fahrenheit.\n" ++
               "\n" ++
               "  The device's time will always be updated to match the current local time\n" ++
               "  even if temperature setting is left blank.\n") []]) ∧
        Event.bleInitAndRun ∉ o.trace) ∧
      (o.exitCode ≠ 1 →
        o.exitCode = 0 ∧ o.trace = Event.bleInitAndRun :: workerMain ⟨1, 0, 0, 0, 0⟩ o.g_params) :=
  C2_main_exit_code (workerMain ⟨1, 0, 0, 0, 0⟩) 3 [cstr "LYWSD02", cstr "F", cstr "bogus"]
    (by decide) (by decide) (by decide)

/-- C5, as stated, fails: the command line `LYWSD02 c f` has two arguments
after the program name, and `parseCommandLine` returns 0 on it (with the units
of the second argument). -/
theorem C5_two_arguments_accepted :
    [cstr "c", cstr "f"].length = 2 ∧
    parseCommandLine 3 [cstr "LYWSD02", cstr "c", cstr "f"] =
      some ⟨0, ⟨TemperatureUnits.FAHRENHEIT⟩, [], [1, 2]⟩ := by
  decide

/-- C5, amended: on a command line of `argc >= 1` C strings `parseCommandLine`
returns, and it returns 0 exactly when every argument after the program name,
however many there are, is recognized; otherwise it returns the non-zero
value -1. -/
theorem C5_parse_accepts_iff_all_recognized (argc : Int) (argv : List CString)
    (hargc : argc = argv.length) (h1 : 1 ≤ argc) (hstr : ∀ a ∈ argv, IsCString a) :
    ∃ o, parseCommandLine argc argv = some o ∧
      (o.result = 0 ↔ ∀ a ∈ argv.tail, recognized a = true) ∧
      (o.result ≠ 0 → o.result = -1) := by
  have hz : ∀ a ∈ argv.tail, 0 ∉ a := fun a ha =>
    (hstr a (List.mem_of_mem_tail ha)).not_mem_zero
  obtain ⟨p, hp, hcase⟩ := loop_outcome argv.tail 1 ⟨TemperatureUnits.NONE⟩ [] hz
  rw [← parseCommandLine_eq_loop argc argv hargc h1] at hp
  refine ⟨p, hp, ?_, ?_⟩
  · rcases hcase with ⟨h0, _, hall⟩ | ⟨hm, a, ha, hna, _⟩
    · exact ⟨fun _ => hall, fun _ => h0⟩
    · constructor
      · intro h0
        rw [hm] at h0
        simp at h0
      · intro hall
        rw [hall a ha] at hna
        simp at hna
  · rcases hcase with ⟨h0, _, _⟩ | ⟨hm, _⟩
    · intro h; exact absurd h0 h
    · intro _; exact hm

/-- Witness of the amended C5 at the command line `LYWSD02 C Fahrenheit c`. -/
theorem C5_parse_accepts_iff_all_recognized_witness :
    ∃ o, parseCommandLine 4 [cstr "LYWSD02", cstr "C", cstr "Fahrenheit", cstr "c"] = some o ∧
      (o.result = 0 ↔
        ∀ a ∈ [cstr "LYWSD02", cstr "C", cstr "Fahrenheit", cstr "c"].tail,
          recognized a = true) ∧
      (o.result ≠ 0 → o.result = -1) :=
  C5_parse_accepts_iff_all_recognized 4 [cstr "LYWSD02", cstr "C", cstr "Fahrenheit", cstr "c"]
    (by decide) (by decide) (by decide)

/-- C6 at its failing input: the usage text documents the spelling
`Fahrenheight`, and on the command line `LYWSD02 Fahrenheight`
`parseCommandLine` reports an invalid flag, returns -1 and leaves
`tempUnits = NONE`, while the three other documented spellings select their
units. -/
theorem C6_documented_spelling_rejected :
    parseCommandLine 2 [cstr "LYWSD02", cstr "Fahrenheight"] =
      some ⟨-1, ⟨TemperatureUnits.NONE⟩,
        [Event.fprintf_stderr "error: '%s' isn't a valid command line flag.\n"
          [FormatArg.str (cstr "Fahrenheight")]], [1]⟩ ∧
    parseCommandLine 2 [cstr "LYWSD02", cstr "Celcius"] =
      some ⟨0, ⟨TemperatureUnits.CELCIUS⟩, [], [1]⟩ ∧
    parseCommandLine 2 [cstr "LYWSD02", cstr "C"] =
      some ⟨0, ⟨TemperatureUnits.CELCIUS⟩, [], [1]⟩ ∧
    parseCommandLine 2 [cstr "LYWSD02", cstr "F"] =
      some ⟨0, ⟨TemperatureUnits.FAHRENHEIT⟩, [], [1]⟩ := by
  decide

/-- C10: on a command line of `argc >= 1` strings whose `argc - 1` arguments
after the program name are all recognized, `parseCommandLine` returns, having
read exactly `argv[1]`, ..., `argv[argc-1]` in order; it returns 0 with no
output and `tempUnits` is the units named by the last argument (`NONE` when
there is none), whatever the earlier arguments are. -/
theorem C10_parse_last_argument_wins (argc : Int) (argv : List CString)
    (hargc : argc = argv.length) (h1 : 1 ≤ argc)
    (hrec : ∀ a ∈ argv.tail, recognized a = true) :
    parseCommandLine argc argv =
      some ⟨0, ⟨unitsOfLast argv.tail⟩, [], List.range' 1 (argv.length - 1)⟩ := by
  rw [parseCommandLine_eq_loop argc argv hargc h1,
    loop_all_recognized argv.tail 1 ⟨TemperatureUnits.NONE⟩ [] hrec, unitsOfLast_eq]
  simp

/-- Witness of C10 at the command line `LYWSD02 f C`. -/
theorem C10_parse_last_argument_wins_witness :
    parseCommandLine 3 [cstr "LYWSD02", cstr "f", cstr "C"] =
      some ⟨0, ⟨unitsOfLast [cstr "LYWSD02", cstr "f", cstr "C"].tail⟩, [],
        List.range' 1 ([cstr "LYWSD02", cstr "f", cstr "C"].length - 1)⟩ ∧
    unitsOfLast [cstr "LYWSD02", cstr "f", cstr "C"].tail = TemperatureUnits.CELCIUS :=
  ⟨C10_parse_last_argument_wins 3 [cstr "LYWSD02", cstr "f", cstr "C"]
    (by decide) (by decide) (by decide), by decide⟩

/-! ## The claims on `workerMain` -/

/-- The BLE calls of `workerMain` when `bleConnect` fails. -/
theorem bleCalls_connect_failed (ble : BleResults) (g_params : CommandLineParams)
    (h : ble.bleConnect ≠ 0) :
    bleCalls ble g_params = [Event.bleConnect none, Event.bleDisconnect] := by
  simp [bleCalls, workerMain, workerMain_Error, h, isBleCall]

/-- The events logged by `workerMain` after a command step that returned `r`. -/
theorem stepLogged_cases (r : Int) :
    StepLogged r
      (if r = BLE_ERROR_NOT_CONNECTED then [msgConnectionLost]
       else if r ≠ BLE_ERROR_NONE then [msgTransmitError r] else []) := by
  by_cases h4 : r = BLE_ERROR_NOT_CONNECTED
  · subst h4
    simp [StepLogged, msgConnectionLost, msgTransmitError, BLE_ERROR_NOT_CONNECTED,
      BLE_ERROR_NONE]
  · by_cases h0 : r = BLE_ERROR_NONE
    · subst h0
      simp [StepLogged, msgConnectionLost, msgTransmitError, BLE_ERROR_NOT_CONNECTED,
        BLE_ERROR_NONE]
    · simp [StepLogged, msgConnectionLost, msgTransmitError, h4, h0]

/-- The shape of the events of `workerMain` when `bleConnect` succeeds: the time
step, its log, the units step, its log, and the disconnect. -/
theorem workerMain_connected (ble : BleResults) (g_params : CommandLineParams)
    (h : ble.bleConnect = 0) :
    workerMain ble g_params =
      timeStep ++
      (if ble.bleSetToCurrentTime = BLE_ERROR_NOT_CONNECTED then [msgConnectionLost]
       else if ble.bleSetToCurrentTime ≠ BLE_ERROR_NONE
         then [msgTransmitError ble.bleSetToCurrentTime] else []) ++
      unitsStep g_params.tempUnits ++
      (if unitsResult ble g_params.tempUnits = BLE_ERROR_NOT_CONNECTED
         then [msgConnectionLost]
       else if unitsResult ble g_params.tempUnits ≠ BLE_ERROR_NONE
         then [msgTransmitError (unitsResult ble g_params.tempUnits)] else []) ++
      workerMain_Error := by
  obtain ⟨units⟩ := g_params
  cases units <;>
    simp [workerMain, h, timeStep, unitsStep, unitsResult, msgConnectionLost, msgTransmitError,
      BLE_ERROR_NONE, BLE_ERROR_NOT_CONNECTED] <;>
    split_ifs <;> simp

/-- The BLE calls of `workerMain` when `bleConnect` succeeds. -/
theorem bleCalls_connected (ble : BleResults) (g_params : CommandLineParams)
    (h : ble.bleConnect = 0) :
    bleCalls ble g_params =
      [Event.bleConnect none, Event.bleSetToCurrentTime] ++ unitsCommand g_params.tempUnits ++
        [Event.bleDisconnect] := by
  rw [bleCalls, workerMain_connected ble g_params h]
  obtain ⟨units⟩ := g_params
  cases units <;>
    simp only [List.filter_append, timeStep, unitsStep, unitsCommand, workerMain_Error,
      msgConnectionLost, msgTransmitError] <;>
    split_ifs <;> simp [isBleCall]

/-- C3: for every value of `tempUnits` and every assignment of result codes to
the BLE functions, the sequence of BLE calls made by `workerMain` contains
`bleDisconnect` exactly once, as its last call. -/
theorem C3_disconnect_once_and_last (ble : BleResults) (g_params : CommandLineParams) :
    (bleCalls ble g_params).count Event.bleDisconnect = 1 ∧
    (bleCalls ble g_params).getLast? = some Event.bleDisconnect := by
  by_cases h : ble.bleConnect = 0
  · rw [bleCalls_connected ble g_params h]
    obtain ⟨units⟩ := g_params
    cases units <;> simp [unitsCommand]
  · rw [bleCalls_connect_failed ble g_params h]
    simp

/-- C4: when `bleConnect` returns `BLE_ERROR_NONE`, the BLE calls of
`workerMain` are `bleConnect(NULL)`, one `bleSetToCurrentTime`, the units
command selected by `tempUnits` alone (one `bleSetToCelcius` for `CELCIUS`, one
`bleSetToFahrenheit` for `FAHRENHEIT`, none for `NONE`) and `bleDisconnect`,
whatever result code `bleSetToCurrentTime` returns. -/
theorem C4_units_command_after_time (ble : BleResults) (g_params : CommandLineParams)
    (h : ble.bleConnect = BLE_ERROR_NONE) :
    bleCalls ble g_params =
      [Event.bleConnect none, Event.bleSetToCurrentTime] ++ unitsCommand g_params.tempUnits ++
        [Event.bleDisconnect] :=
  bleCalls_connected ble g_params h

/-- Witness of C4: the time step loses the connection and the Fahrenheit
command is still issued. -/
theorem C4_units_command_after_time_witness :
    bleCalls ⟨BLE_ERROR_NONE, BLE_ERROR_NOT_CONNECTED, 0, 0, 0⟩ ⟨TemperatureUnits.FAHRENHEIT⟩ =
      [Event.bleConnect none, Event.bleSetToCurrentTime] ++
        unitsCommand TemperatureUnits.FAHRENHEIT ++ [Event.bleDisconnect] :=
  C4_units_command_after_time ⟨BLE_ERROR_NONE, BLE_ERROR_NOT_CONNECTED, 0, 0, 0⟩
    ⟨TemperatureUnits.FAHRENHEIT⟩ rfl

/-- C9: for every non-zero result code of `bleConnect` and every `tempUnits`,
`workerMain` issues no command: its BLE calls are `bleConnect(NULL)` followed by
`bleDisconnect`, and none of `bleSetToCurrentTime`, `bleSetToCelcius`,
`bleSetToFahrenheit` is among its events. -/
theorem C9_no_command_after_failed_connect (ble : BleResults) (g_params : CommandLineParams)
    (h : ble.bleConnect ≠ 0) :
    bleCalls ble g_params = [Event.bleConnect none, Event.bleDisconnect] ∧
    Event.bleSetToCurrentTime ∉ workerMain ble g_params ∧
    Event.bleSetToCelcius ∉ workerMain ble g_params ∧
    Event.bleSetToFahrenheit ∉ workerMain ble g_params := by
  refine ⟨bleCalls_connect_failed ble g_params h, ?_, ?_, ?_⟩ <;>
    simp [workerMain, workerMain_Error, h]

/-- Witness of C9 at the result code `BLE_ERROR_CONNECT` with Celsius selected. -/
theorem C9_no_command_after_failed_connect_witness :
    bleCalls ⟨BLE_ERROR_CONNECT, 0, 0, 0, 0⟩ ⟨TemperatureUnits.CELCIUS⟩ =
      [Event.bleConnect none, Event.bleDisconnect] ∧
    Event.bleSetToCurrentTime ∉ workerMain ⟨BLE_ERROR_CONNECT, 0, 0, 0, 0⟩ ⟨TemperatureUnits.CELCIUS⟩ ∧
    Event.bleSetToCelcius ∉ workerMain ⟨BLE_ERROR_CONNECT, 0, 0, 0, 0⟩ ⟨TemperatureUnits.CELCIUS⟩ ∧
    Event.bleSetToFahrenheit ∉ workerMain ⟨BLE_ERROR_CONNECT, 0, 0, 0, 0⟩ ⟨TemperatureUnits.CELCIUS⟩ :=
  C9_no_command_after_failed_connect ⟨BLE_ERROR_CONNECT, 0, 0, 0, 0⟩ ⟨TemperatureUnits.CELCIUS⟩
    (by decide)

/-- C7: when `bleConnect` succeeds, the events of `workerMain` are the time
step, a log `log1`, the units step, a log `log2` and the disconnect, where for
each step and the result code `r` it returned: "BLE connection lost!" is in
the step's log exactly when `r = BLE_ERROR_NOT_CONNECTED`, the generic message
with `r` exactly when `r` is neither `BLE_ERROR_NONE` nor
`BLE_ERROR_NOT_CONNECTED`, and the log is empty when `r = BLE_ERROR_NONE` (as
it is when no units are selected); the generic message never carries the code
`BLE_ERROR_NOT_CONNECTED`. -/
theorem C7_step_logging (ble : BleResults) (g_params : CommandLineParams)
    (h : ble.bleConnect = BLE_ERROR_NONE) :
    ∃ log1 log2,
      workerMain ble g_params =
        timeStep ++ log1 ++ unitsStep g_params.tempUnits ++ log2 ++ workerMain_Error ∧
      StepLogged ble.bleSetToCurrentTime log1 ∧
      StepLogged (unitsResult ble g_params.tempUnits) log2 ∧
      (g_params.tempUnits = TemperatureUnits.NONE → log2 = []) ∧
      msgTransmitError BLE_ERROR_NOT_CONNECTED ∉ workerMain ble g_params := by
  refine ⟨_, _, workerMain_connected ble g_params h, stepLogged_cases _, stepLogged_cases _,
    ?_, ?_⟩
  · intro hu
    simp [hu, unitsResult, BLE_ERROR_NONE, BLE_ERROR_NOT_CONNECTED]
  · rw [workerMain_connected ble g_params h]
    obtain ⟨units⟩ := g_params
    cases units <;>
      simp only [timeStep, unitsStep, unitsResult, workerMain_Error, msgConnectionLost,
        msgTransmitError] <;>
      split_ifs <;> simp_all [BLE_ERROR_NONE, BLE_ERROR_NOT_CONNECTED] <;> omega

/-- Witness of C7: the time step times out and the Celsius step loses the
connection. -/
theorem C7_step_logging_witness :
    ∃ log1 log2,
      workerMain ⟨BLE_ERROR_NONE, BLE_ERROR_TIMEOUT, BLE_ERROR_NOT_CONNECTED, 0, 0⟩
          ⟨TemperatureUnits.CELCIUS⟩ =
        timeStep ++ log1 ++ unitsStep TemperatureUnits.CELCIUS ++ log2 ++ workerMain_Error ∧
      StepLogged BLE_ERROR_TIMEOUT log1 ∧
      StepLogged (unitsResult ⟨BLE_ERROR_NONE, BLE_ERROR_TIMEOUT, BLE_ERROR_NOT_CONNECTED, 0, 0⟩
        TemperatureUnits.CELCIUS) log2 ∧
      (TemperatureUnits.CELCIUS = TemperatureUnits.NONE → log2 = []) ∧
      msgTransmitError BLE_ERROR_NOT_CONNECTED ∉
        workerMain ⟨BLE_ERROR_NONE, BLE_ERROR_TIMEOUT, BLE_ERROR_NOT_CONNECTED, 0, 0⟩
          ⟨TemperatureUnits.CELCIUS⟩ :=
  C7_step_logging ⟨BLE_ERROR_NONE, BLE_ERROR_TIMEOUT, BLE_ERROR_NOT_CONNECTED, 0, 0⟩
    ⟨TemperatureUnits.CELCIUS⟩ rfl

/-! ## The claim on the Session Manager -/

/-- One step of the Session Manager keeps the Connection State or follows an
edge of the state machine. -/
theorem sessionStep_edge (s : Session) (e : SessionEvent) :
    s.state = (sessionStep s e).state ∨ isEdgeOn e s.state (sessionStep s e).state = true := by
  obtain ⟨st, pending⟩ := s
  cases e <;> cases st <;> cases pending <;> simp [sessionStep, isEdgeOn]

/-- Each edge of the state machine is taken by some step. -/
theorem sessionStep_edges_taken :
    (sessionStep ⟨ConnectionState.Disconnected, false⟩ SessionEvent.connect).state =
      ConnectionState.Connecting ∧
    (sessionStep ⟨ConnectionState.Connecting, false⟩ SessionEvent.radioConnected).state =
      ConnectionState.Connected ∧
    (sessionStep ⟨ConnectionState.Connected, false⟩ SessionEvent.disconnect).state =
      ConnectionState.Disconnecting ∧
    (sessionStep ⟨ConnectionState.Disconnecting, false⟩ SessionEvent.radioDisconnected).state =
      ConnectionState.Disconnected ∧
    (sessionStep ⟨ConnectionState.Connected, true⟩ SessionEvent.radioLinkLost).state =
      ConnectionState.Disconnected ∧
    (sessionStep ⟨ConnectionState.Connecting, false⟩ SessionEvent.timeout).state =
      ConnectionState.Disconnected := by
  decide

/-- C8: for every sequence of API calls and radio events, from every state of the
Session Manager, each transition of the Connection State keeps the state or
follows one of the edges Disconnected to Connecting to Connected to
Disconnecting to Disconnected, Connected to Disconnected (on link loss) and
Connecting to Disconnected (on timeout). -/
theorem C8_connection_state_edges (s : Session) (es : List SessionEvent) :
    ∀ t ∈ sessionRun s es, t.1 = t.2.2 ∨ isEdgeOn t.2.1 t.1 t.2.2 = true := by
  induction es generalizing s with
  | nil => simp [sessionRun]
  | cons e es ih =>
    intro t ht
    simp only [sessionRun, List.mem_cons] at ht
    rcases ht with rfl | ht
    · exact sessionStep_edge s e
    · exact ih (sessionStep s e) t ht

/-- Witness of C8: the second transition of the run connect, radio connected,
link lost from the Disconnected state. -/
theorem C8_connection_state_edges_witness :
    (ConnectionState.Connecting, SessionEvent.radioConnected, ConnectionState.Connected) ∈
      sessionRun ⟨ConnectionState.Disconnected, false⟩
        [SessionEvent.connect, SessionEvent.radioConnected, SessionEvent.radioLinkLost] ∧
    (ConnectionState.Connecting = ConnectionState.Connected ∨
      isEdgeOn SessionEvent.radioConnected ConnectionState.Connecting
        ConnectionState.Connected = true) :=
  ⟨by decide,
   C8_connection_state_edges ⟨ConnectionState.Disconnected, false⟩
     [SessionEvent.connect, SessionEvent.radioConnected, SessionEvent.radioLinkLost]
     (ConnectionState.Connecting, SessionEvent.radioConnected, ConnectionState.Connected)
     (by decide)⟩

end LYWSD02
